import Mathlib

/-!
# Firebreak — verification of the evaluation pipeline

Shallow embedding of the core of the `firebreak` repository
(`src/firebreak/models.py`, `policy.py`, `classifier.py`, `audit.py`,
`interceptor.py`) together with proofs of its specified properties.

Conventions of the embedding:
* Python `dict` values become ordered association lists with
  overwrite-on-assignment semantics (`dictSet` / `dictGet`).
* `datetime.now()` becomes an explicit `now : Nat` parameter.
* `uuid4()` is modelled by a fresh counter carried in the `AuditLog`
  state, which captures the freshness/uniqueness guarantee.
* Python exceptions become `Except String`; a Python function that
  cannot raise becomes a total Lean function.
* The external Anthropic API calls (classification and downstream
  completion) are opaque network collaborators; each call site takes an
  oracle value (`ApiOutcome` / `LlmOutcome`) describing what the
  external world did: raised, or returned the given payload.
* Confidence scores are modelled as `Rat`; the code never computes with
  them, it only stores and copies them.
-/

namespace Firebreak

/-- `Decision` enum from `models.py`: policy decision for a classified prompt. -/
inductive Decision where
  | ALLOW
  | ALLOW_CONSTRAINED
  | BLOCK
deriving DecidableEq, Repr

/-- `Decision(value)` from Python's `Enum` constructor: succeeds exactly on
the three declared string values. -/
def Decision.ofString? : String → Option Decision
  | "ALLOW" => some .ALLOW
  | "ALLOW_CONSTRAINED" => some .ALLOW_CONSTRAINED
  | "BLOCK" => some .BLOCK
  | _ => none

/-- `AuditLevel` enum from `models.py`. -/
inductive AuditLevel where
  | STANDARD
  | ENHANCED
  | CRITICAL
deriving DecidableEq, Repr

/-- `AuditLevel(value)`: the enum values are the lowercase strings. -/
def AuditLevel.ofString? : String → Option AuditLevel
  | "standard" => some .STANDARD
  | "enhanced" => some .ENHANCED
  | "critical" => some .CRITICAL
  | _ => none

/-- `PolicyRule` dataclass from `models.py`. -/
structure PolicyRule where
  id : String
  description : String
  match_categories : List String
  decision : Decision
  audit : AuditLevel
  requires_human : Bool
  constraints : List String
  alerts : List String
  color : String
  note : String
deriving DecidableEq, Repr

/-- `Policy` dataclass from `models.py`; `signatories` is a dict,
modelled as an association list. -/
structure Policy where
  name : String
  version : String
  effective : String
  signatories : List (String × String)
  rules : List PolicyRule
  categories : List String
deriving DecidableEq, Repr

/-- `ClassificationResult` dataclass from `models.py`; `timestamp` is a
`datetime`, modelled as `Nat`. -/
structure ClassificationResult where
  intent_category : String
  confidence : Rat
  raw_prompt : String
  timestamp : Nat
deriving DecidableEq, Repr

/-- `EvaluationResult` dataclass from `models.py`. -/
structure EvaluationResult where
  decision : Decision
  matched_rule_id : String
  rule_description : String
  audit_level : AuditLevel
  alerts : List String
  constraints : List String
  color : String
  note : String
  classification : ClassificationResult
  llm_response : Option String
deriving DecidableEq, Repr

/-- The `EvaluationResult` built in `PolicyEngine.evaluate` when a rule
matches (`policy.py` lines 145-155): fields copied from the rule,
`alerts` and `constraints` via `list(...)`. -/
def mkRuleResult (rule : PolicyRule) (classification : ClassificationResult) :
    EvaluationResult :=
  { decision := rule.decision
    matched_rule_id := rule.id
    rule_description := rule.description
    audit_level := rule.audit
    alerts := rule.alerts
    constraints := rule.constraints
    color := rule.color
    note := rule.note
    classification := classification
    llm_response := none }

/-- The synthesized default `EvaluationResult` returned by
`PolicyEngine.evaluate` when no rule matches (`policy.py` lines 158-168). -/
def unknownIntentResult (classification : ClassificationResult) :
    EvaluationResult :=
  { decision := .BLOCK
    matched_rule_id := "unknown-intent"
    rule_description := "No matching rule for intent category"
    audit_level := .CRITICAL
    alerts := ["trust_safety"]
    constraints := []
    color := "red"
    note := ""
    classification := classification
    llm_response := none }

/-- The rule-scanning loop of `PolicyEngine.evaluate` (`policy.py`
lines 143-168): iterate rules in order, return the first whose
`match_categories` contains the category, else the synthesized default. -/
def evaluateRules (rules : List PolicyRule) (intent_category : String)
    (classification : ClassificationResult) : EvaluationResult :=
  match rules with
  | [] => unknownIntentResult classification
  | rule :: rest =>
    if rule.match_categories.contains intent_category then
      mkRuleResult rule classification
    else
      evaluateRules rest intent_category classification

/-- `PolicyEngine` from `policy.py`: holds the loaded policy or `None`. -/
structure PolicyEngine where
  policy : Option Policy
deriving DecidableEq, Repr

/-- `PolicyEngine.__init__`: no policy loaded. -/
def PolicyEngine.init : PolicyEngine := { policy := none }

/-- `PolicyEngine.evaluate` (`policy.py` lines 117-168): raises
`RuntimeError` when no policy is loaded, otherwise scans the rules. -/
def PolicyEngine.evaluate (eng : PolicyEngine) (intent_category : String)
    (classification : ClassificationResult) : Except String EvaluationResult :=
  match eng.policy with
  | none => .error "No policy loaded. Call load() first."
  | some p => .ok (evaluateRules p.rules intent_category classification)

/-! ### Policy loading (`PolicyEngine.load`, `policy.py` lines 28-115)

The YAML file has already been parsed by `yaml.safe_load`; the parsed
document is modelled structurally: absent keys are `none`.  Type-level
shape errors (`'policy' section must be a mapping`, rule not a mapping)
cannot arise in the typed model; every key-presence and enum-validity
check of the source is kept. -/

/-- A raw rule mapping as it appears in the parsed YAML document. -/
structure RawRule where
  id : Option String
  description : Option String
  match_categories : Option (List String)
  decision : Option String
  audit : Option String
  requires_human : Option Bool
  constraints : Option (List String)
  alerts : Option (List String)
  color : Option String
  note : Option String
deriving DecidableEq, Repr

/-- The raw `policy` section of the parsed YAML document. -/
structure RawPolicySection where
  name : Option String
  version : Option String
  effective : Option String
  signatories : Option (List (String × String))
deriving DecidableEq, Repr

/-- The whole parsed YAML policy document. -/
structure RawPolicyDoc where
  policy : Option RawPolicySection
  rules : Option (List RawRule)
  categories : Option (List String)
deriving DecidableEq, Repr

/-- The per-rule validation and construction of `PolicyEngine.load`
(`policy.py` lines 70-96): key-presence checks for `id`, `decision`,
`match_categories` in that order, then the `Decision(...)` and
`AuditLevel(...)` enum conversions (argument order of the `PolicyRule`
constructor call), defaults for the optional keys.  `i` is the rule's
index, used only in error messages. -/
def parseRule (i : Nat) (raw : RawRule) : Except String PolicyRule :=
  match raw.id with
  | none => .error ("Rule at index " ++ toString i ++ " is missing required field: id")
  | some rid =>
    match raw.decision with
    | none => .error ("Rule '" ++ rid ++ "' is missing required field: decision")
    | some decisionStr =>
      match raw.match_categories with
      | none => .error ("Rule '" ++ rid ++ "' is missing required field: match_categories")
      | some cats =>
        match Decision.ofString? decisionStr with
        | none => .error ("'" ++ decisionStr ++ "' is not a valid Decision")
        | some decision =>
          match AuditLevel.ofString? (raw.audit.getD "standard") with
          | none => .error ("'" ++ raw.audit.getD "standard" ++ "' is not a valid AuditLevel")
          | some audit =>
            .ok { id := rid
                  description := raw.description.getD ""
                  match_categories := cats
                  decision := decision
                  audit := audit
                  requires_human := raw.requires_human.getD false
                  constraints := raw.constraints.getD []
                  alerts := raw.alerts.getD []
                  color := raw.color.getD "green"
                  note := raw.note.getD "" }

/-- The rule-building loop of `PolicyEngine.load` (`policy.py` lines
68-97): validate each raw rule in order, failing on the first bad one. -/
def parseRules (i : Nat) : List RawRule → Except String (List PolicyRule)
  | [] => .ok []
  | raw :: rest =>
    match parseRule i raw with
    | .error e => .error e
    | .ok rule =>
      match parseRules (i + 1) rest with
      | .error e => .error e
      | .ok rules => .ok (rule :: rules)

/-- The validation and construction part of `PolicyEngine.load`
(`policy.py` lines 46-112), after YAML parsing and before the
`self.policy` assignment. -/
def loadPolicy (data : RawPolicyDoc) : Except String Policy :=
  match data.policy with
  | none => .error "YAML must contain a top-level 'policy' section"
  | some pd =>
    match pd.name with
    | none => .error "Policy is missing required field: policy.name"
    | some pname =>
      match pd.version with
      | none => .error "Policy is missing required field: policy.version"
      | some pversion =>
        match data.rules with
        | none => .error "YAML must contain a top-level 'rules' section"
        | some rawRules =>
          if rawRules.isEmpty then
            .error ("'rules' must be a non-empty list")
          else
            match parseRules 0 rawRules with
            | .error e => .error e
            | .ok rules =>
              .ok { name := pname
                    version := pversion
                    effective := pd.effective.getD ""
                    signatories := pd.signatories.getD []
                    rules := rules
                    categories := data.categories.getD [] }

/-- `PolicyEngine.load` as a state transition: the `self.policy`
assignment (`policy.py` line 114) is the last statement of the method,
so on any raised error the engine state is untouched. -/
def PolicyEngine.load (eng : PolicyEngine) (data : RawPolicyDoc) :
    PolicyEngine × Except String Policy :=
  match loadPolicy data with
  | .ok p => ({ policy := some p }, .ok p)
  | .error e => (eng, .error e)

/-! ### Classifier cache and intent classifier (`classifier.py`) -/

/-- Ordered-dictionary lookup: Python `dict.get`. -/
def dictGet {α : Type} (d : List (String × α)) (k : String) : Option α :=
  (d.find? (fun kv => kv.1 == k)).map (fun kv => kv.2)

/-- Ordered-dictionary assignment: Python `d[k] = v` overwrites the
existing binding in place or appends a new one at the end. -/
def dictSet {α : Type} : List (String × α) → String → α → List (String × α)
  | [], k, v => [(k, v)]
  | (a, b) :: rest, k, v =>
    if a == k then (k, v) :: rest else (a, b) :: dictSet rest k v

/-- The key normalization shared by `ClassifierCache.get` and
`ClassifierCache.set` (`classifier.py` lines 73 and 83):
`prompt.strip().lower()` — drop leading and trailing whitespace, then
lower-case every character (spelled out on the character list so that it
evaluates by kernel reduction). -/
def normalizeKey (prompt : String) : String :=
  String.mk
    (((prompt.data.dropWhile Char.isWhitespace).reverse.dropWhile
        Char.isWhitespace).reverse.map Char.toLower)

/-- `ClassifierCache` from `classifier.py`; the `_cache` dict is the
`cacheMap` association list. -/
structure ClassifierCache where
  cacheMap : List (String × ClassificationResult)
deriving DecidableEq, Repr

/-- `ClassifierCache.get` (`classifier.py` lines 63-74): normalize, then
look up. -/
def ClassifierCache.get (c : ClassifierCache) (prompt : String) :
    Option ClassificationResult :=
  dictGet c.cacheMap (normalizeKey prompt)

/-- `ClassifierCache.set` (`classifier.py` lines 76-84): normalize, then
store. -/
def ClassifierCache.set (c : ClassifierCache) (prompt : String)
    (result : ClassificationResult) : ClassifierCache :=
  { cacheMap := dictSet c.cacheMap (normalizeKey prompt) result }

/-- One entry of the JSON bootstrap file: `{category, confidence}`. -/
structure CacheFileEntry where
  category : String
  confidence : Rat
deriving DecidableEq, Repr

/-- `ClassifierCache._load_from_file` (`classifier.py` lines 46-61): for
each `(prompt_key, entry)` pair of the parsed JSON object, store a
`ClassificationResult` under the key EXACTLY as given (`self._cache[prompt_key] = result`
— no normalization), with `raw_prompt` the key and the load time as
timestamp.  `bootStep` is one iteration of the loading loop. -/
def bootStep (now : Nat) (acc : List (String × ClassificationResult))
    (kv : String × CacheFileEntry) : List (String × ClassificationResult) :=
  dictSet acc kv.1
    { intent_category := kv.2.category
      confidence := kv.2.confidence
      raw_prompt := kv.1
      timestamp := now }

/-- The loop of `_load_from_file`, starting from the empty `_cache`. -/
def ClassifierCache.loadFromFile (data : List (String × CacheFileEntry))
    (now : Nat) : ClassifierCache :=
  { cacheMap := data.foldl (bootStep now) [] }

/-- What the external classification call did, seen from `classify`'s
`try` block: `exn` covers the API raising, `json.loads` failing, the
`category`/`confidence` key accesses failing, and `float(...)` failing —
any exception reaching the `except` clause; `parsed` is a successfully
parsed category/confidence pair. -/
inductive ApiOutcome where
  | exn
  | parsed (category : String) (confidence : Rat)
deriving DecidableEq, Repr

/-- `IntentClassifier` from `classifier.py` (the Anthropic client and
model id are part of the opaque external call). -/
structure IntentClassifier where
  categories : List String
  cache : Option ClassifierCache
deriving DecidableEq, Repr

/-- The fallback result built on every failure path of
`IntentClassifier.classify`. -/
def fallbackResult (prompt : String) (now : Nat) : ClassificationResult :=
  { intent_category := "unclassified"
    confidence := 0
    raw_prompt := prompt
    timestamp := now }

/-- The cache-miss body of `IntentClassifier.classify` (`classifier.py`
lines 137-178): the whole `try` block plus the `except` fallback.
Returns the classification and the (possibly updated) classifier state. -/
def IntentClassifier.classifyMiss (cl : IntentClassifier)
    (outcome : ApiOutcome) (prompt : String) (now : Nat) :
    ClassificationResult × IntentClassifier :=
  match outcome with
  | .exn => (fallbackResult prompt now, cl)
  | .parsed category confidence =>
    if cl.categories.contains category then
      let result : ClassificationResult :=
        { intent_category := category
          confidence := confidence
          raw_prompt := prompt
          timestamp := now }
      match cl.cache with
      | some cache => (result, { cl with cache := some (cache.set prompt result) })
      | none => (result, cl)
    else
      (fallbackResult prompt now, cl)

/-- `IntentClassifier.classify` (`classifier.py` lines 118-178): consult
the cache first; on a hit return it with no external call, otherwise run
the external-call body. -/
def IntentClassifier.classify (cl : IntentClassifier) (outcome : ApiOutcome)
    (prompt : String) (now : Nat) :
    ClassificationResult × IntentClassifier :=
  match cl.cache with
  | some cache =>
    match cache.get prompt with
    | some cached => (cached, cl)
    | none => cl.classifyMiss outcome prompt now
  | none => cl.classifyMiss outcome prompt now

/-! ### Audit log (`audit.py`) -/

/-- `AuditEntry` dataclass from `models.py`; the `uuid4()` default is
modelled by a fresh counter value (`Nat`), the `datetime.now()` default
by an explicit `now`. -/
structure AuditEntry where
  prompt_text : String
  classification : ClassificationResult
  evaluation : EvaluationResult
  id : Nat
  timestamp : Nat
deriving DecidableEq, Repr

/-- `AuditLog` from `audit.py`; `nextId` models the source of fresh
unique ids (`uuid4`). -/
structure AuditLog where
  entries : List AuditEntry
  nextId : Nat
deriving DecidableEq, Repr

/-- `AuditLog.__init__`: empty log. -/
def AuditLog.init : AuditLog := { entries := [], nextId := 0 }

/-- `AuditLog.log` (`audit.py` lines 17-39): create an entry with a
fresh id and the current time, append it, return it. -/
def AuditLog.log (log : AuditLog) (prompt : String)
    (classification : ClassificationResult) (evaluation : EvaluationResult)
    (now : Nat) : AuditEntry × AuditLog :=
  let entry : AuditEntry :=
    { prompt_text := prompt
      classification := classification
      evaluation := evaluation
      id := log.nextId
      timestamp := now }
  (entry, { entries := log.entries ++ [entry], nextId := log.nextId + 1 })

/-- `AuditLog.get_entries` (`audit.py` lines 41-47): `list(self.entries)`
— a copy of the backing list; at the value level, the same sequence in
the same order. -/
def AuditLog.get_entries (log : AuditLog) : List AuditEntry :=
  log.entries

/-- `AuditLog.get_alerts` (`audit.py` lines 49-55): the entries whose
evaluation has a non-empty (truthy) alerts list, in order. -/
def AuditLog.get_alerts (log : AuditLog) : List AuditEntry :=
  log.entries.filter (fun e => !e.evaluation.alerts.isEmpty)

/-- Well-formedness of the audit log state: all stored ids are below the
counter and pairwise distinct.  Holds for `AuditLog.init` and is
preserved by `AuditLog.log` (proved below); it is what makes the
modelled ids "fresh and unique" the way `uuid4` ids are. -/
def AuditLog.WF (log : AuditLog) : Prop :=
  (∀ e ∈ log.entries, e.id < log.nextId) ∧ (log.entries.map AuditEntry.id).Nodup

/-! ### Interceptor (`interceptor.py`) -/

/-- The observable side effects of `evaluate_request`, in program order:
one constructor per `_emit` call site, plus the audit-log append.  The
`callbacks` registry of the source delivers each emitted event to its
subscribers synchronously; the trace records the emissions themselves. -/
inductive Action where
  | prompt_received (prompt : String)
  | classified (c : ClassificationResult)
  | evaluated (e : EvaluationResult)
  | response (e : EvaluationResult)
  | blocked (e : EvaluationResult)
  | alert (target : String) (e : EvaluationResult)
  | audit_append (entry : AuditEntry)
deriving DecidableEq, Repr

/-- What the downstream completion call did: raised, or returned a
message whose first content block has the given text. -/
inductive LlmOutcome where
  | exn
  | text (t : String)
deriving DecidableEq, Repr

/-- The branch test of `evaluate_request` (`interceptor.py` line 110):
`evaluation.decision in (Decision.ALLOW, Decision.ALLOW_CONSTRAINED)`. -/
def isAllowed : Decision → Bool
  | .ALLOW => true
  | .ALLOW_CONSTRAINED => true
  | .BLOCK => false

/-- The text attached to `llm_response` (`interceptor.py` lines
111-119): the downstream response's first content block, or the
sentinel when the call raised. -/
def llmText : LlmOutcome → String
  | .exn => "[LLM call failed]"
  | .text t => t

/-- `FirebreakInterceptor` state from `interceptor.py` (the Anthropic
client, model id and callback registry are external). -/
structure FirebreakInterceptor where
  policy_engine : PolicyEngine
  classifier : IntentClassifier
  audit_log : AuditLog
deriving DecidableEq, Repr

/-- Everything `evaluate_request` produces: the returned evaluation, the
final interceptor state, the ordered side-effect trace, whether the
downstream model was invoked, and the appended audit entry. -/
structure RequestOutcome where
  evaluation : EvaluationResult
  state : FirebreakInterceptor
  trace : List Action
  llm_invoked : Bool
  entry : AuditEntry
deriving DecidableEq, Repr

/-- `FirebreakInterceptor.evaluate_request` (`interceptor.py` lines
69-132).  Steps, in source order: emit `prompt_received`; classify; emit
`classified`; policy-evaluate (propagating its `RuntimeError` when no
policy is loaded); emit `evaluated`; on ALLOW/ALLOW_CONSTRAINED invoke
the downstream model, attach its text or the `"[LLM call failed]"`
sentinel to `llm_response`, emit `response`; otherwise emit `blocked`;
then one `alert` emission per alert target; then the single audit-log
append; return the evaluation. -/
def FirebreakInterceptor.evaluate_request (it : FirebreakInterceptor)
    (apiOutcome : ApiOutcome) (llm : LlmOutcome) (prompt : String)
    (now : Nat) : Except String RequestOutcome :=
  let step2 := it.classifier.classify apiOutcome prompt now
  let classification := step2.1
  match it.policy_engine.evaluate classification.intent_category classification with
  | .error e => .error e
  | .ok evaluation =>
    let branch :
        EvaluationResult × List Action × Bool :=
      if isAllowed evaluation.decision then
        let ev := { evaluation with llm_response := some (llmText llm) }
        (ev, [Action.response ev], true)
      else
        (evaluation, [Action.blocked evaluation], false)
    let ev := branch.1
    let logged := it.audit_log.log prompt classification ev now
    .ok { evaluation := ev
          state := { it with classifier := step2.2, audit_log := logged.2 }
          trace :=
            [Action.prompt_received prompt,
             Action.classified classification,
             Action.evaluated evaluation] ++
            branch.2.1 ++
            ev.alerts.map (fun target => Action.alert target ev) ++
            [Action.audit_append logged.1]
          llm_invoked := branch.2.2
          entry := logged.1 }

/-- The outcome `evaluate_request` produces when a policy `p` is loaded:
the `.ok` branch of `evaluate_request` with the engine's evaluation
spelled out (proof scaffolding; `evaluate_request_ok` below shows
`evaluate_request` returns exactly this). -/
def requestOutcome (it : FirebreakInterceptor) (p : Policy)
    (ao : ApiOutcome) (llm : LlmOutcome) (prompt : String) (now : Nat) :
    RequestOutcome :=
  let step2 := it.classifier.classify ao prompt now
  let classification := step2.1
  let evaluation :=
    evaluateRules p.rules classification.intent_category classification
  let branch :
      EvaluationResult × List Action × Bool :=
    if isAllowed evaluation.decision then
      let ev := { evaluation with llm_response := some (llmText llm) }
      (ev, [Action.response ev], true)
    else
      (evaluation, [Action.blocked evaluation], false)
  let ev := branch.1
  let logged := it.audit_log.log prompt classification ev now
  { evaluation := ev
    state := { it with classifier := step2.2, audit_log := logged.2 }
    trace :=
      [Action.prompt_received prompt,
       Action.classified classification,
       Action.evaluated evaluation] ++
      branch.2.1 ++
      ev.alerts.map (fun target => Action.alert target ev) ++
      [Action.audit_append logged.1]
    llm_invoked := branch.2.2
    entry := logged.1 }

/-! ### Concrete inputs used by witnesses and counterexamples -/

/-- A concrete classification used in witness statements. -/
def wCl : ClassificationResult :=
  { intent_category := "unclassified"
    confidence := 0
    raw_prompt := "Summarize this."
    timestamp := 0 }

/-- A concrete ALLOW rule (end-to-end scenario A of the spec). -/
def wRuleAllow : PolicyRule :=
  { id := "allow-analysis"
    description := ""
    match_categories := ["summarization", "translation"]
    decision := .ALLOW
    audit := .STANDARD
    requires_human := false
    constraints := []
    alerts := []
    color := "green"
    note := "" }

/-- A concrete BLOCK rule with two alert targets (scenario B). -/
def wRuleBlock : PolicyRule :=
  { id := "block-surveillance"
    description := ""
    match_categories := ["bulk_surveillance"]
    decision := .BLOCK
    audit := .CRITICAL
    requires_human := false
    constraints := []
    alerts := ["trust_safety", "inspector_general"]
    color := "red"
    note := "" }

/-- A second rule matching `"summarization"`, declared after
`wRuleAllow`, to exercise the first-match invariant. -/
def wRuleShadowed : PolicyRule :=
  { id := "shadowed-rule"
    description := ""
    match_categories := ["summarization"]
    decision := .BLOCK
    audit := .STANDARD
    requires_human := false
    constraints := []
    alerts := []
    color := "red"
    note := "" }

/-- A concrete loaded policy for witness statements. -/
def wPolicy : Policy :=
  { name := "defense-standard"
    version := "1.0"
    effective := ""
    signatories := []
    rules := [wRuleAllow, wRuleShadowed, wRuleBlock]
    categories := ["summarization", "translation", "bulk_surveillance"]
  }

/-- An engine with `wPolicy` loaded. -/
def wEngine : PolicyEngine := { policy := some wPolicy }

/-- A raw document whose single rule has an EMPTY `match_categories`
list — the input refuting the claim that loading rejects it. -/
def emptyCatsDoc : RawPolicyDoc :=
  { policy := some { name := some "p", version := some "1",
                     effective := none, signatories := none }
    rules := some [{ id := some "r1"
                     description := none
                     match_categories := some []
                     decision := some "ALLOW"
                     audit := none
                     requires_human := none
                     constraints := none
                     alerts := none
                     color := none
                     note := none }]
    categories := none }

/-- The policy `emptyCatsDoc` successfully loads to. -/
def emptyCatsPolicy : Policy :=
  { name := "p"
    version := "1"
    effective := ""
    signatories := []
    rules := [{ id := "r1"
                description := ""
                match_categories := []
                decision := .ALLOW
                audit := .STANDARD
                requires_human := false
                constraints := []
                alerts := []
                color := "green"
                note := "" }]
    categories := [] }

/-- A bootstrap mapping whose key "Foo" is not in normalized form. -/
def bootData : List (String × CacheFileEntry) :=
  [("Foo", { category := "summarization", confidence := 9 / 10 })]

/-- A bootstrap mapping with an already-normalized key. -/
def bootDataNorm : List (String × CacheFileEntry) :=
  [("summarize this.", { category := "summarization", confidence := 88 / 100 })]

/-- A raw document missing `policy.version`, used as a failing load. -/
def badDoc : RawPolicyDoc :=
  { policy := some { name := some "p", version := none,
                     effective := none, signatories := none }
    rules := some []
    categories := none }

/-- A concrete interceptor over `wEngine` with a one-entry cache mapping
the normalized prompt "summarize this." to a cached classification. -/
def wCachedCl : ClassificationResult :=
  { intent_category := "bulk_surveillance"
    confidence := 88 / 100
    raw_prompt := "Summarize this."
    timestamp := 0 }

/-- The interceptor used by witness statements: policy loaded, cache
containing `wCachedCl` under the normalized key, empty audit log. -/
def wInterceptor : FirebreakInterceptor :=
  { policy_engine := wEngine
    classifier :=
      { categories := ["summarization", "translation", "bulk_surveillance"]
        cache := some { cacheMap := [("summarize this.", wCachedCl)] } }
    audit_log := AuditLog.init }

/-! ## Helper lemmas -/

/-- `evaluateRules` agrees with `List.find?` on the matching rule:
first-match semantics. -/
theorem evaluateRules_eq_find (rules : List PolicyRule) (c : String)
    (cl : ClassificationResult) :
    evaluateRules rules c cl =
      match rules.find? (fun r => r.match_categories.contains c) with
      | some r => mkRuleResult r cl
      | none => unknownIntentResult cl := by
  induction rules with
  | nil => rfl
  | cons rule rest ih =>
    cases h : rule.match_categories.contains c with
    | true =>
      simp only [evaluateRules, h, if_true, List.find?_cons]
    | false =>
      simp only [evaluateRules, h, Bool.false_eq_true, if_false,
        List.find?_cons, ih]

/-- If no rule in the prefix matches, evaluation skips the prefix. -/
theorem evaluateRules_append_of_no_match (pre rest : List PolicyRule)
    (c : String) (cl : ClassificationResult)
    (h : ∀ r ∈ pre, r.match_categories.contains c = false) :
    evaluateRules (pre ++ rest) c cl = evaluateRules rest c cl := by
  induction pre with
  | nil => simp
  | cons r pre ih =>
    have hr : r.match_categories.contains c = false := h r (by simp)
    simp only [List.cons_append, evaluateRules, hr, Bool.false_eq_true,
      if_false]
    exact ih (fun r hr => h r (by simp [hr]))

/-- Every result of the rule scan has `llm_response = None`: both the
per-rule construction and the synthesized default leave it unset. -/
theorem evaluateRules_llm_response_none (rules : List PolicyRule)
    (c : String) (cl : ClassificationResult) :
    (evaluateRules rules c cl).llm_response = none := by
  induction rules with
  | nil => rfl
  | cons rule rest ih =>
    cases h : rule.match_categories.contains c <;>
      simp only [evaluateRules, h, Bool.false_eq_true, if_false, if_true, ih]
    rfl

/-- If no rule matches the category, the whole scan yields the default. -/
theorem evaluateRules_no_match (rules : List PolicyRule) (c : String)
    (cl : ClassificationResult)
    (h : ∀ r ∈ rules, r.match_categories.contains c = false) :
    evaluateRules rules c cl = unknownIntentResult cl := by
  have := evaluateRules_append_of_no_match rules [] c cl h
  simpa using this

/-- Lookup after assignment, for the ordered-dict model: the assigned
key now maps to the new value and every other key is untouched. -/
theorem dictGet_dictSet {α : Type} (d : List (String × α)) (k k' : String)
    (v : α) :
    dictGet (dictSet d k v) k' = if k = k' then some v else dictGet d k' := by
  induction d with
  | nil =>
    by_cases h : k = k' <;> simp [dictSet, dictGet, List.find?_cons, h]
  | cons kv rest ih =>
    obtain ⟨a, b⟩ := kv
    by_cases hak : a = k
    · subst hak
      by_cases h : a = k' <;>
        simp [dictSet, dictGet, List.find?_cons, h]
    · by_cases h : a = k' <;> by_cases hkk : k = k' <;>
        simp_all [dictSet, dictGet, List.find?_cons]

/-! ## Claims -/

/-- Claim C1: for every loaded policy and every intent category not
contained in any rule's `match_categories`, `PolicyEngine.evaluate`
returns BLOCK with rule id "unknown-intent", audit level CRITICAL,
exactly the single trust-and-safety alert target, empty constraints and
the given classification; it never returns ALLOW or ALLOW_CONSTRAINED
for such a category. -/
theorem evaluate_fail_closed (eng : PolicyEngine) (p : Policy) (c : String)
    (cl : ClassificationResult)
    (hp : eng.policy = some p)
    (h : ∀ rule ∈ p.rules, rule.match_categories.contains c = false) :
    eng.evaluate c cl = .ok (unknownIntentResult cl) ∧
    (unknownIntentResult cl).decision = Decision.BLOCK ∧
    (unknownIntentResult cl).matched_rule_id = "unknown-intent" ∧
    (unknownIntentResult cl).audit_level = AuditLevel.CRITICAL ∧
    (unknownIntentResult cl).alerts = ["trust_safety"] ∧
    (unknownIntentResult cl).constraints = [] ∧
    (unknownIntentResult cl).classification = cl ∧
    (∀ r, eng.evaluate c cl = .ok r →
      r.decision ≠ Decision.ALLOW ∧ r.decision ≠ Decision.ALLOW_CONSTRAINED) := by
  have heval : eng.evaluate c cl = .ok (unknownIntentResult cl) := by
    unfold PolicyEngine.evaluate
    rw [hp, ← evaluateRules_no_match p.rules c cl h]
  refine ⟨heval, rfl, rfl, rfl, rfl, rfl, rfl, ?_⟩
  intro r hr
  rw [heval] at hr
  cases hr
  exact ⟨by simp [unknownIntentResult], by simp [unknownIntentResult]⟩

/-- Witness for C1: `wPolicy` has no rule matching "unclassified", and
evaluating it yields the synthesized default. -/
theorem evaluate_fail_closed_witness :
    wEngine.evaluate "unclassified" wCl = .ok (unknownIntentResult wCl) :=
  (evaluate_fail_closed wEngine wPolicy "unclassified" wCl rfl
    (by decide)).1

/-- Claim C2: `evaluate` scans rules in declaration order and returns
the result built from the first rule whose `match_categories` contains
the category; in particular, when two rules both list a category, the
earlier-declared rule's result (hence its id) is returned. -/
theorem evaluate_first_match :
    (∀ (eng : PolicyEngine) (p : Policy) (c : String)
        (cl : ClassificationResult) (pre rest : List PolicyRule)
        (r : PolicyRule),
      eng.policy = some p →
      p.rules = pre ++ r :: rest →
      (∀ r' ∈ pre, r'.match_categories.contains c = false) →
      r.match_categories.contains c = true →
      eng.evaluate c cl = .ok (mkRuleResult r cl)) ∧
    (∀ (eng : PolicyEngine) (p : Policy) (c : String)
        (cl : ClassificationResult) (pre mid post : List PolicyRule)
        (r1 r2 : PolicyRule),
      eng.policy = some p →
      p.rules = pre ++ r1 :: (mid ++ r2 :: post) →
      (∀ r' ∈ pre, r'.match_categories.contains c = false) →
      r1.match_categories.contains c = true →
      r2.match_categories.contains c = true →
      ∀ res, eng.evaluate c cl = .ok res → res.matched_rule_id = r1.id) := by
  have main : ∀ (eng : PolicyEngine) (p : Policy) (c : String)
      (cl : ClassificationResult) (pre rest : List PolicyRule)
      (r : PolicyRule),
      eng.policy = some p →
      p.rules = pre ++ r :: rest →
      (∀ r' ∈ pre, r'.match_categories.contains c = false) →
      r.match_categories.contains c = true →
      eng.evaluate c cl = .ok (mkRuleResult r cl) := by
    intro eng p c cl pre rest r hp hrules hpre hr
    have hrw : evaluateRules p.rules c cl = mkRuleResult r cl := by
      rw [hrules, evaluateRules_append_of_no_match pre (r :: rest) c cl hpre]
      simp only [evaluateRules, hr, if_true]
    unfold PolicyEngine.evaluate
    rw [hp, ← hrw]
  refine ⟨main, ?_⟩
  intro eng p c cl pre mid post r1 r2 hp hrules hpre h1 h2 res hres
  have := main eng p c cl pre (mid ++ r2 :: post) r1 hp hrules hpre h1
  rw [this] at hres
  cases hres
  rfl

/-- Witness for C2: in `wPolicy`, `wRuleAllow` and `wRuleShadowed` both
list "summarization"; evaluation returns the earlier rule's result. -/
theorem evaluate_first_match_witness :
    wEngine.evaluate "summarization" wCl = .ok (mkRuleResult wRuleAllow wCl) ∧
    (mkRuleResult wRuleAllow wCl).matched_rule_id = "allow-analysis" :=
  ⟨evaluate_first_match.1 wEngine wPolicy "summarization" wCl []
      [wRuleShadowed, wRuleBlock] wRuleAllow rfl rfl (by simp) (by decide),
   evaluate_first_match.2 wEngine wPolicy "summarization" wCl [] []
      [wRuleBlock] wRuleAllow wRuleShadowed rfl rfl (by simp) (by decide)
      (by decide) (mkRuleResult wRuleAllow wCl)
      (evaluate_first_match.1 wEngine wPolicy "summarization" wCl []
        [wRuleShadowed, wRuleBlock] wRuleAllow rfl rfl (by simp) (by decide))⟩

/-- Claim C7: `ClassifierCache.get` and `ClassifierCache.set` share the
canonical key function (strip then lower-case), so any two prompts with
the same normalized form are cache-equivalent: `get p2` after
`set p1 X` returns `X`. -/
theorem cache_key_normalization (c : ClassifierCache)
    (X : ClassificationResult) (p1 p2 : String)
    (h : normalizeKey p1 = normalizeKey p2) :
    (c.set p1 X).get p2 = some X := by
  unfold ClassifierCache.get ClassifierCache.set
  rw [← h]
  simp [dictGet_dictSet]

/-- Witness for C7: `get " Foo "` after `set "foo", X` returns `X`. -/
theorem cache_key_normalization_witness :
    (ClassifierCache.set { cacheMap := [] } "foo" wCl).get " Foo " = some wCl :=
  cache_key_normalization { cacheMap := [] } wCl "foo" " Foo " (by decide)

/-- Claim C3: on the cache-miss path, whenever the external call raises,
the response fails to parse (or lacks the category/confidence fields),
or the parsed category is outside the configured list, `classify`
returns the "unclassified"/0.0 fallback carrying the original prompt —
and, being a total function, never propagates an exception. -/
theorem classify_total_fallback (cl : IntentClassifier)
    (outcome : ApiOutcome) (prompt : String) (now : Nat)
    (hmiss : cl.cache = none ∨
      ∃ k, cl.cache = some k ∧ k.get prompt = none)
    (hbad : outcome = ApiOutcome.exn ∨
      ∃ cat conf, outcome = ApiOutcome.parsed cat conf ∧
        cl.categories.contains cat = false) :
    (cl.classify outcome prompt now).1.intent_category = "unclassified" ∧
    (cl.classify outcome prompt now).1.confidence = 0 ∧
    (cl.classify outcome prompt now).1.raw_prompt = prompt := by
  have hMissEq :
      cl.classify outcome prompt now = cl.classifyMiss outcome prompt now := by
    rcases hmiss with h | ⟨k, hk, hg⟩
    · simp only [IntentClassifier.classify, h]
    · simp only [IntentClassifier.classify, hk, hg]
  rw [hMissEq]
  rcases hbad with h | ⟨cat, conf, ho, hc⟩
  · rw [h]
    exact ⟨rfl, rfl, rfl⟩
  · rw [ho]
    simp only [IntentClassifier.classifyMiss, hc, Bool.false_eq_true,
      if_false]
    exact ⟨rfl, rfl, rfl⟩

/-- Witness for C3: an empty-cache classifier that sees an exception, at
a concrete prompt. -/
theorem classify_total_fallback_witness :
    (IntentClassifier.classify
        { categories := ["summarization"], cache := none }
        ApiOutcome.exn "Do something odd" 5).1.intent_category =
      "unclassified" :=
  (classify_total_fallback
    { categories := ["summarization"], cache := none }
    ApiOutcome.exn "Do something odd" 5 (Or.inl rfl) (Or.inl rfl)).1

/-- Keys never assigned by the remaining fold steps keep their value. -/
theorem foldl_bootStep_get_of_not_mem (now : Nat)
    (data : List (String × CacheFileEntry))
    (acc : List (String × ClassificationResult)) (k : String)
    (h : ∀ kv ∈ data, kv.1 ≠ k) :
    dictGet (data.foldl (bootStep now) acc) k = dictGet acc k := by
  induction data generalizing acc with
  | nil => rfl
  | cons kv rest ih =>
    have hk : kv.1 ≠ k := h kv (by simp)
    rw [List.foldl_cons, ih (bootStep now acc kv) (fun kv hkv => h kv (by simp [hkv]))]
    simp only [bootStep, dictGet_dictSet, hk, if_false]

/-- Looking up a bootstrapped key with distinct data keys returns the
classification built from its entry. -/
theorem foldl_bootStep_get_of_mem (now : Nat)
    (data : List (String × CacheFileEntry))
    (acc : List (String × ClassificationResult)) (k : String)
    (e : CacheFileEntry)
    (hnd : (data.map Prod.fst).Nodup)
    (hmem : (k, e) ∈ data) :
    dictGet (data.foldl (bootStep now) acc) k =
      some { intent_category := e.category
             confidence := e.confidence
             raw_prompt := k
             timestamp := now } := by
  induction data generalizing acc with
  | nil => cases hmem
  | cons kv rest ih =>
    rcases List.mem_cons.mp hmem with h | h
    · subst h
      have hnotin : ∀ kv ∈ rest, kv.1 ≠ k := by
        intro kv hkv
        have := (List.nodup_cons.mp hnd).1
        intro heq
        exact this (by
          simpa [heq] using List.mem_map_of_mem Prod.fst hkv)
      rw [List.foldl_cons,
        foldl_bootStep_get_of_not_mem now rest _ k hnotin]
      simp [bootStep, dictGet_dictSet]
    · have hne : kv.1 ≠ k := by
        have := (List.nodup_cons.mp hnd).1
        intro heq
        exact this (by
          simpa [heq] using List.mem_map_of_mem Prod.fst h)
      rw [List.foldl_cons, ih _ (List.nodup_cons.mp hnd).2 h]

/-- Counterexample to Claim C8: the bootstrap key "Foo" is stored
verbatim, but lookup normalizes, so `get "Foo"` misses even though the
prompt's normalized form equals the key's normalized form. -/
theorem bootstrap_lookup_counterexample :
    normalizeKey "Foo" = normalizeKey "Foo" ∧
    (ClassifierCache.loadFromFile bootData 0).get "Foo" = none := by
  exact ⟨rfl, by decide⟩

/-- Claim C8 (amended): a bootstrapped entry is retrievable through
`get` exactly when its key is already in normalized form; for such a key
`k` (with bootstrap keys pairwise distinct), every prompt whose
normalized form is `k` retrieves that entry's category and confidence. -/
theorem bootstrap_lookup_normalized (data : List (String × CacheFileEntry))
    (now : Nat) (k : String) (e : CacheFileEntry) (p : String)
    (hnd : (data.map Prod.fst).Nodup)
    (hmem : (k, e) ∈ data)
    (_hk : normalizeKey k = k)
    (hp : normalizeKey p = k) :
    (ClassifierCache.loadFromFile data now).get p =
      some { intent_category := e.category
             confidence := e.confidence
             raw_prompt := k
             timestamp := now } := by
  unfold ClassifierCache.get ClassifierCache.loadFromFile
  rw [hp]
  exact foldl_bootStep_get_of_mem now data [] k e hnd hmem

/-- Witness for amended C8: a normalized bootstrap key is found under a
case/whitespace variant of itself. -/
theorem bootstrap_lookup_normalized_witness :
    (ClassifierCache.loadFromFile bootDataNorm 3).get " Summarize This. " =
      some { intent_category := "summarization"
             confidence := 88 / 100
             raw_prompt := "summarize this."
             timestamp := 3 } :=
  bootstrap_lookup_normalized bootDataNorm 3 "summarize this."
    { category := "summarization", confidence := 88 / 100 }
    " Summarize This. " (by decide) (by simp [bootDataNorm]) (by decide)
    (by decide)

/-- A raw rule missing a required key, or carrying an invalid decision
string, never validates. -/
theorem parseRule_error_of_bad (j : Nat) (r : RawRule)
    (h : r.id = none ∨ r.decision = none ∨ r.match_categories = none ∨
      (∃ s, r.decision = some s ∧ Decision.ofString? s = none)) :
    ∃ e, parseRule j r = .error e := by
  rcases h with h | h | h | ⟨s, hs, hd⟩
  · exact ⟨_, by simp only [parseRule, h]; rfl⟩
  · cases hid : r.id with
    | none => exact ⟨_, by simp only [parseRule, hid]; rfl⟩
    | some rid => exact ⟨_, by simp only [parseRule, hid, h]; rfl⟩
  · cases hid : r.id with
    | none => exact ⟨_, by simp only [parseRule, hid]; rfl⟩
    | some rid =>
      cases hdec : r.decision with
      | none => exact ⟨_, by simp only [parseRule, hid, hdec]; rfl⟩
      | some s => exact ⟨_, by simp only [parseRule, hid, hdec, h]; rfl⟩
  · cases hid : r.id with
    | none => exact ⟨_, by simp only [parseRule, hid]; rfl⟩
    | some rid =>
      cases hcats : r.match_categories with
      | none => exact ⟨_, by simp only [parseRule, hid, hs, hcats]; rfl⟩
      | some cats =>
        exact ⟨_, by simp only [parseRule, hid, hs, hcats, hd]; rfl⟩

/-- If any member rule fails to validate (at every index), the whole
rule-building loop fails. -/
theorem parseRules_error_of_mem (rl : List RawRule) (r : RawRule) (i : Nat)
    (hmem : r ∈ rl)
    (hr : ∀ j, ∃ e, parseRule j r = .error e) :
    ∃ e, parseRules i rl = .error e := by
  induction rl generalizing i with
  | nil => cases hmem
  | cons a rest ih =>
    rcases List.mem_cons.mp hmem with h | h
    · subst h
      obtain ⟨e, he⟩ := hr i
      exact ⟨e, by simp only [parseRules, he]⟩
    · cases ha : parseRule i a with
      | error e => exact ⟨e, by simp only [parseRules, ha]⟩
      | ok rule =>
        obtain ⟨e, he⟩ := ih (i + 1) h
        exact ⟨e, by simp only [parseRules, ha, he]⟩

/-- Counterexample to Claim C9: a rule whose `match_categories` is the
EMPTY list is accepted by `load` — no structural-validation error is
raised for it. -/
theorem load_accepts_empty_match_categories :
    (emptyCatsDoc.rules.getD []).map RawRule.match_categories = [some []] ∧
    loadPolicy emptyCatsDoc = .ok emptyCatsPolicy := by
  constructor
  · rfl
  · rfl

/-- Claim C9 (amended): `load` raises a structural-validation error
whenever the source lacks the policy section or policy name/version, the
rules list is absent or empty, any rule lacks id, decision or
match_categories, or a rule's decision string is not one of the three
Decision values; an empty (but present) `match_categories` list is NOT
rejected — such a rule loads and simply matches nothing.  `evaluate`
raises its state error exactly when no policy has been loaded. -/
theorem load_validation_amended :
    (∀ doc : RawPolicyDoc, doc.policy = none →
      ∃ e, loadPolicy doc = .error e) ∧
    (∀ (doc : RawPolicyDoc) (pd : RawPolicySection), doc.policy = some pd →
      pd.name = none → ∃ e, loadPolicy doc = .error e) ∧
    (∀ (doc : RawPolicyDoc) (pd : RawPolicySection), doc.policy = some pd →
      pd.version = none → ∃ e, loadPolicy doc = .error e) ∧
    (∀ doc : RawPolicyDoc, doc.rules = none →
      ∃ e, loadPolicy doc = .error e) ∧
    (∀ doc : RawPolicyDoc, doc.rules = some [] →
      ∃ e, loadPolicy doc = .error e) ∧
    (∀ (doc : RawPolicyDoc) (rl : List RawRule) (r : RawRule),
      doc.rules = some rl → r ∈ rl →
      (r.id = none ∨ r.decision = none ∨ r.match_categories = none ∨
        (∃ s, r.decision = some s ∧ Decision.ofString? s = none)) →
      ∃ e, loadPolicy doc = .error e) ∧
    loadPolicy emptyCatsDoc = .ok emptyCatsPolicy ∧
    (∀ (eng : PolicyEngine) (c : String) (cl : ClassificationResult),
      (eng.policy = none →
        eng.evaluate c cl = .error "No policy loaded. Call load() first.") ∧
      (∀ p, eng.policy = some p → ∃ r, eng.evaluate c cl = .ok r)) := by
  refine ⟨?_, ?_, ?_, ?_, ?_, ?_, rfl, ?_⟩
  · intro doc h
    exact ⟨_, by simp only [loadPolicy, h]; rfl⟩
  · intro doc pd hpd h
    exact ⟨_, by simp only [loadPolicy, hpd, h]; rfl⟩
  · intro doc pd hpd h
    cases hn : pd.name with
    | none => exact ⟨_, by simp only [loadPolicy, hpd, hn]; rfl⟩
    | some pname => exact ⟨_, by simp only [loadPolicy, hpd, hn, h]; rfl⟩
  · intro doc h
    cases hpd : doc.policy with
    | none => exact ⟨_, by simp only [loadPolicy, hpd]; rfl⟩
    | some pd =>
      cases hn : pd.name with
      | none => exact ⟨_, by simp only [loadPolicy, hpd, hn]; rfl⟩
      | some pname =>
        cases hv : pd.version with
        | none => exact ⟨_, by simp only [loadPolicy, hpd, hn, hv]; rfl⟩
        | some pversion =>
          exact ⟨_, by simp only [loadPolicy, hpd, hn, hv, h]; rfl⟩
  · intro doc h
    cases hpd : doc.policy with
    | none => exact ⟨_, by simp only [loadPolicy, hpd]; rfl⟩
    | some pd =>
      cases hn : pd.name with
      | none => exact ⟨_, by simp only [loadPolicy, hpd, hn]; rfl⟩
      | some pname =>
        cases hv : pd.version with
        | none => exact ⟨_, by simp only [loadPolicy, hpd, hn, hv]; rfl⟩
        | some pversion =>
          exact ⟨_, by simp only [loadPolicy, hpd, hn, hv, h,
            List.isEmpty_nil, if_true]; rfl⟩
  · intro doc rl r hrl hmem hbad
    cases hpd : doc.policy with
    | none => exact ⟨_, by simp only [loadPolicy, hpd]; rfl⟩
    | some pd =>
      cases hn : pd.name with
      | none => exact ⟨_, by simp only [loadPolicy, hpd, hn]; rfl⟩
      | some pname =>
        cases hv : pd.version with
        | none => exact ⟨_, by simp only [loadPolicy, hpd, hn, hv]; rfl⟩
        | some pversion =>
          have hne : rl.isEmpty = false := by
            cases rl with
            | nil => cases hmem
            | cons a rest => rfl
          obtain ⟨e, he⟩ := parseRules_error_of_mem rl r 0 hmem
            (fun j => parseRule_error_of_bad j r hbad)
          exact ⟨e, by simp only [loadPolicy, hpd, hn, hv, hrl, hne,
            Bool.false_eq_true, if_false, he]⟩
  · intro eng c cl
    constructor
    · intro h
      simp only [PolicyEngine.evaluate, h]
    · intro p hp
      exact ⟨_, by simp only [PolicyEngine.evaluate, hp]; rfl⟩

/-- Witness for amended C9: `badDoc` (missing `policy.version`) fails to
load, and an engine without a policy reports the state error. -/
theorem load_validation_amended_witness :
    (∃ e, loadPolicy badDoc = .error e) ∧
    PolicyEngine.init.evaluate "summarization" wCl =
      .error "No policy loaded. Call load() first." :=
  ⟨load_validation_amended.2.2.1 badDoc
      { name := some "p", version := none,
        effective := none, signatories := none } rfl rfl,
   (load_validation_amended.2.2.2.2.2.2.2 PolicyEngine.init
      "summarization" wCl).1 rfl⟩

/-- Claim C10: `PolicyEngine.load` is atomic — the `self.policy`
assignment is the method's final statement, so a failed load leaves the
stored policy exactly as it was: a previously loaded policy stays
active and `evaluate` behaves as before, and an engine that never loaded
still reports the no-policy state error. -/
theorem load_atomic (eng : PolicyEngine) (doc : RawPolicyDoc) (e : String)
    (h : (eng.load doc).2 = .error e) :
    (eng.load doc).1 = eng ∧
    (∀ c cl, ((eng.load doc).1).evaluate c cl = eng.evaluate c cl) ∧
    (eng.policy = none → ∀ c cl,
      ((eng.load doc).1).evaluate c cl =
        .error "No policy loaded. Call load() first.") := by
  cases hl : loadPolicy doc with
  | ok p =>
    rw [PolicyEngine.load, hl] at h
    cases h
  | error e' =>
    have h1 : (eng.load doc).1 = eng := by
      rw [PolicyEngine.load, hl]
    refine ⟨h1, fun c cl => by rw [h1], fun hn c cl => by
      rw [h1]
      simp only [PolicyEngine.evaluate, hn]⟩

/-- Witness for C10: a failed load of `badDoc` on a fresh engine leaves
it without a policy, still reporting the state error. -/
theorem load_atomic_witness :
    (PolicyEngine.init.load badDoc).1 = PolicyEngine.init ∧
    (PolicyEngine.init.load badDoc).1.evaluate "summarization" wCl =
      .error "No policy loaded. Call load() first." :=
  ⟨(load_atomic PolicyEngine.init badDoc
      "Policy is missing required field: policy.version" rfl).1,
   (load_atomic PolicyEngine.init badDoc
      "Policy is missing required field: policy.version" rfl).2.2 rfl
      "summarization" wCl⟩

/-- With a loaded policy, the engine evaluation succeeds with the
rule-scan result. -/
theorem engine_evaluate_ok (eng : PolicyEngine) (p : Policy)
    (hp : eng.policy = some p) (c : String) (cl : ClassificationResult) :
    eng.evaluate c cl = .ok (evaluateRules p.rules c cl) := by
  simp only [PolicyEngine.evaluate, hp]

/-- With a loaded policy, `evaluate_request` succeeds and returns
exactly `requestOutcome`. -/
theorem evaluate_request_ok (it : FirebreakInterceptor) (p : Policy)
    (ao : ApiOutcome) (llm : LlmOutcome) (prompt : String) (now : Nat)
    (hp : it.policy_engine.policy = some p) :
    it.evaluate_request ao llm prompt now =
      .ok (requestOutcome it p ao llm prompt now) := by
  unfold FirebreakInterceptor.evaluate_request requestOutcome
  simp only [engine_evaluate_ok it.policy_engine p hp]

/-- `isAllowed` is true exactly on the two non-blocking decisions. -/
theorem isAllowed_iff (d : Decision) :
    isAllowed d = true ↔ (d = Decision.ALLOW ∨ d = Decision.ALLOW_CONSTRAINED) := by
  cases d <;> simp [isAllowed]

/-- `isAllowed` is false exactly on BLOCK. -/
theorem isAllowed_false_iff (d : Decision) :
    isAllowed d = false ↔ d = Decision.BLOCK := by
  cases d <;> simp [isAllowed]

/-- The allowed branch of `requestOutcome`, spelled out. -/
theorem requestOutcome_allowed_eq (it : FirebreakInterceptor) (p : Policy)
    (ao : ApiOutcome) (llm : LlmOutcome) (prompt : String) (now : Nat)
    (hb : isAllowed
      (evaluateRules p.rules
        (it.classifier.classify ao prompt now).1.intent_category
        (it.classifier.classify ao prompt now).1).decision = true) :
    requestOutcome it p ao llm prompt now =
      (let classification := (it.classifier.classify ao prompt now).1
       let evaluation :=
         evaluateRules p.rules classification.intent_category classification
       let ev := { evaluation with llm_response := some (llmText llm) }
       let logged := it.audit_log.log prompt classification ev now
       { evaluation := ev
         state := { it with
           classifier := (it.classifier.classify ao prompt now).2
           audit_log := logged.2 }
         trace :=
           [Action.prompt_received prompt,
            Action.classified classification,
            Action.evaluated evaluation] ++
           [Action.response ev] ++
           ev.alerts.map (fun target => Action.alert target ev) ++
           [Action.audit_append logged.1]
         llm_invoked := true
         entry := logged.1 }) := by
  unfold requestOutcome
  simp only [hb, if_true]

/-- The blocked branch of `requestOutcome`, spelled out. -/
theorem requestOutcome_blocked_eq (it : FirebreakInterceptor) (p : Policy)
    (ao : ApiOutcome) (llm : LlmOutcome) (prompt : String) (now : Nat)
    (hb : isAllowed
      (evaluateRules p.rules
        (it.classifier.classify ao prompt now).1.intent_category
        (it.classifier.classify ao prompt now).1).decision = false) :
    requestOutcome it p ao llm prompt now =
      (let classification := (it.classifier.classify ao prompt now).1
       let evaluation :=
         evaluateRules p.rules classification.intent_category classification
       let logged := it.audit_log.log prompt classification evaluation now
       { evaluation := evaluation
         state := { it with
           classifier := (it.classifier.classify ao prompt now).2
           audit_log := logged.2 }
         trace :=
           [Action.prompt_received prompt,
            Action.classified classification,
            Action.evaluated evaluation] ++
           [Action.blocked evaluation] ++
           evaluation.alerts.map
             (fun target => Action.alert target evaluation) ++
           [Action.audit_append logged.1]
         llm_invoked := false
         entry := logged.1 }) := by
  unfold requestOutcome
  simp only [hb, Bool.false_eq_true, if_false]

/-- Claim C4: the downstream model is invoked iff the decision is ALLOW
or ALLOW_CONSTRAINED; in that case the response text — or the sentinel
`"[LLM call failed]"` when the call raised — is attached to
`llm_response` and the failure never escapes (the call returns `.ok`);
for a BLOCK decision the model is never invoked and `llm_response`
stays `None`. -/
theorem llm_call_iff_allowed (it : FirebreakInterceptor) (p : Policy)
    (ao : ApiOutcome) (llm : LlmOutcome) (prompt : String) (now : Nat)
    (hp : it.policy_engine.policy = some p) :
    ∃ out : RequestOutcome,
      it.evaluate_request ao llm prompt now = .ok out ∧
      (out.llm_invoked = true ↔
        (out.evaluation.decision = Decision.ALLOW ∨
         out.evaluation.decision = Decision.ALLOW_CONSTRAINED)) ∧
      (llm = LlmOutcome.exn → out.llm_invoked = true →
        out.evaluation.llm_response = some "[LLM call failed]") ∧
      (∀ t, llm = LlmOutcome.text t → out.llm_invoked = true →
        out.evaluation.llm_response = some t) ∧
      (out.evaluation.decision = Decision.BLOCK →
        out.llm_invoked = false ∧ out.evaluation.llm_response = none) := by
  refine ⟨requestOutcome it p ao llm prompt now,
    evaluate_request_ok it p ao llm prompt now hp, ?_⟩
  cases hb : isAllowed
      (evaluateRules p.rules
        (it.classifier.classify ao prompt now).1.intent_category
        (it.classifier.classify ao prompt now).1).decision with
  | true =>
    rw [requestOutcome_allowed_eq it p ao llm prompt now hb]
    have hd := (isAllowed_iff _).mp hb
    refine ⟨⟨fun _ => hd, fun _ => rfl⟩,
      fun hl _ => by subst hl; rfl,
      fun t hl _ => by subst hl; rfl,
      fun hB => ?_⟩
    exfalso
    have hB' : (evaluateRules p.rules
        (it.classifier.classify ao prompt now).1.intent_category
        (it.classifier.classify ao prompt now).1).decision =
        Decision.BLOCK := hB
    rw [hB'] at hb
    exact absurd hb (by simp [isAllowed])
  | false =>
    rw [requestOutcome_blocked_eq it p ao llm prompt now hb]
    have hB := (isAllowed_false_iff _).mp hb
    refine ⟨⟨fun h => Bool.noConfusion h, fun hd => ?_⟩,
      fun _ h => Bool.noConfusion h,
      fun t _ h => Bool.noConfusion h,
      fun _ => ⟨rfl, evaluateRules_llm_response_none p.rules
        (it.classifier.classify ao prompt now).1.intent_category
        (it.classifier.classify ao prompt now).1⟩⟩
    exfalso
    have hd' : (evaluateRules p.rules
        (it.classifier.classify ao prompt now).1.intent_category
        (it.classifier.classify ao prompt now).1).decision =
          Decision.ALLOW ∨
        (evaluateRules p.rules
        (it.classifier.classify ao prompt now).1.intent_category
        (it.classifier.classify ao prompt now).1).decision =
          Decision.ALLOW_CONSTRAINED := hd
    rcases hd' with h | h <;> rw [h] at hB <;> exact Decision.noConfusion hB

/-- Witness for C4: the cached "Summarize this." prompt classifies to
`bulk_surveillance`, which `wPolicy` blocks. -/
theorem llm_call_iff_allowed_witness :
    ∃ out : RequestOutcome,
      wInterceptor.evaluate_request ApiOutcome.exn LlmOutcome.exn
          "Summarize this." 7 = .ok out ∧
      (out.llm_invoked = true ↔
        (out.evaluation.decision = Decision.ALLOW ∨
         out.evaluation.decision = Decision.ALLOW_CONSTRAINED)) ∧
      (LlmOutcome.exn = LlmOutcome.exn → out.llm_invoked = true →
        out.evaluation.llm_response = some "[LLM call failed]") ∧
      (∀ t, LlmOutcome.exn = LlmOutcome.text t → out.llm_invoked = true →
        out.evaluation.llm_response = some t) ∧
      (out.evaluation.decision = Decision.BLOCK →
        out.llm_invoked = false ∧ out.evaluation.llm_response = none) :=
  llm_call_iff_allowed wInterceptor wPolicy ApiOutcome.exn LlmOutcome.exn
    "Summarize this." 7 rfl

/-- Claim C5: a call whose evaluation carries N alert targets emits
exactly N `alert` events — one per target, in list order, each carrying
that target and the same evaluation object — after the
`response`/`blocked` event and before the single audit-log append,
independent of the decision. -/
theorem alert_fanout (it : FirebreakInterceptor) (p : Policy)
    (ao : ApiOutcome) (llm : LlmOutcome) (prompt : String) (now : Nat)
    (hp : it.policy_engine.policy = some p) :
    ∃ out : RequestOutcome,
      it.evaluate_request ao llm prompt now = .ok out ∧
      ∃ (c : ClassificationResult) (ev₀ : EvaluationResult)
        (branchAct : Action),
        (branchAct = Action.response out.evaluation ∨
         branchAct = Action.blocked out.evaluation) ∧
        out.trace =
          [Action.prompt_received prompt, Action.classified c,
           Action.evaluated ev₀, branchAct] ++
          out.evaluation.alerts.map
            (fun target => Action.alert target out.evaluation) ++
          [Action.audit_append out.entry] := by
  refine ⟨requestOutcome it p ao llm prompt now,
    evaluate_request_ok it p ao llm prompt now hp, ?_⟩
  cases hb : isAllowed
      (evaluateRules p.rules
        (it.classifier.classify ao prompt now).1.intent_category
        (it.classifier.classify ao prompt now).1).decision with
  | true =>
    rw [requestOutcome_allowed_eq it p ao llm prompt now hb]
    refine ⟨(it.classifier.classify ao prompt now).1,
      evaluateRules p.rules
        (it.classifier.classify ao prompt now).1.intent_category
        (it.classifier.classify ao prompt now).1,
      Action.response { evaluateRules p.rules
        (it.classifier.classify ao prompt now).1.intent_category
        (it.classifier.classify ao prompt now).1 with
        llm_response := some (llmText llm) },
      Or.inl rfl, ?_⟩
    simp
  | false =>
    rw [requestOutcome_blocked_eq it p ao llm prompt now hb]
    refine ⟨(it.classifier.classify ao prompt now).1,
      evaluateRules p.rules
        (it.classifier.classify ao prompt now).1.intent_category
        (it.classifier.classify ao prompt now).1,
      Action.blocked (evaluateRules p.rules
        (it.classifier.classify ao prompt now).1.intent_category
        (it.classifier.classify ao prompt now).1),
      Or.inr rfl, ?_⟩
    simp

/-- Witness for C5: blocking the cached surveillance prompt fires one
alert event per target of `wRuleBlock` between `blocked` and the audit
append. -/
theorem alert_fanout_witness :
    ∃ out : RequestOutcome,
      wInterceptor.evaluate_request ApiOutcome.exn LlmOutcome.exn
          "Summarize this." 7 = .ok out ∧
      ∃ (c : ClassificationResult) (ev₀ : EvaluationResult)
        (branchAct : Action),
        (branchAct = Action.response out.evaluation ∨
         branchAct = Action.blocked out.evaluation) ∧
        out.trace =
          [Action.prompt_received "Summarize this.", Action.classified c,
           Action.evaluated ev₀, branchAct] ++
          out.evaluation.alerts.map
            (fun target => Action.alert target out.evaluation) ++
          [Action.audit_append out.entry] :=
  alert_fanout wInterceptor wPolicy ApiOutcome.exn LlmOutcome.exn
    "Summarize this." 7 rfl

/-- Claim C6: every `evaluate_request` call appends exactly one audit
entry; `AuditLog.log` always succeeds, appending one entry with the
current timestamp and a fresh id unique among the stored ids (the
well-formedness invariant holds initially and is preserved);
`get_entries` returns the entry sequence in insertion order (the
source returns it as a fresh `list(...)` copy); `get_alerts` is exactly
the insertion-ordered subsequence of entries whose evaluation has a
non-empty alerts list. -/
theorem audit_log_contract :
    (∀ (it : FirebreakInterceptor) (p : Policy) (ao : ApiOutcome)
        (llm : LlmOutcome) (prompt : String) (now : Nat),
      it.policy_engine.policy = some p →
      ∃ out : RequestOutcome,
        it.evaluate_request ao llm prompt now = .ok out ∧
        out.state.audit_log.entries =
          it.audit_log.entries ++ [out.entry]) ∧
    (∀ (log : AuditLog) (prompt : String) (c : ClassificationResult)
        (e : EvaluationResult) (now : Nat),
      (log.log prompt c e now).2.entries =
        log.entries ++ [(log.log prompt c e now).1] ∧
      (log.log prompt c e now).1.timestamp = now ∧
      (log.log prompt c e now).1.prompt_text = prompt ∧
      (AuditLog.WF log →
        (log.log prompt c e now).1.id ∉ log.entries.map AuditEntry.id ∧
        AuditLog.WF (log.log prompt c e now).2)) ∧
    AuditLog.WF AuditLog.init ∧
    (∀ log : AuditLog, log.get_entries = log.entries) ∧
    (∀ log : AuditLog,
      log.get_alerts =
        log.entries.filter (fun e => decide (e.evaluation.alerts ≠ [])) ∧
      List.Sublist log.get_alerts log.entries) := by
  refine ⟨?_, ?_, ?_, ?_, ?_⟩
  · intro it p ao llm prompt now hp
    exact ⟨requestOutcome it p ao llm prompt now,
      evaluate_request_ok it p ao llm prompt now hp, rfl⟩
  · intro log prompt c e now
    refine ⟨rfl, rfl, rfl, ?_⟩
    intro hwf
    obtain ⟨hlt, hnd⟩ := hwf
    have hfresh : log.nextId ∉ log.entries.map AuditEntry.id := by
      intro hmem
      obtain ⟨a, ha, hid⟩ := List.mem_map.mp hmem
      exact absurd (hid ▸ hlt a ha) (lt_irrefl _)
    refine ⟨hfresh, ?_, ?_⟩
    · intro a ha
      rcases List.mem_append.mp ha with h | h
      · exact Nat.lt_succ_of_lt (hlt a h)
      · rcases List.mem_singleton.mp h with rfl
        exact Nat.lt_succ_self _
    · rw [AuditLog.log]
      simp only [List.map_append, List.map_cons, List.map_nil]
      rw [List.nodup_append]
      refine ⟨hnd, List.nodup_singleton _, ?_⟩
      intro a ha hmem
      rw [List.mem_singleton] at hmem
      exact hfresh (hmem ▸ ha)
  · exact ⟨fun e h => absurd h (List.not_mem_nil e), List.nodup_nil⟩
  · intro log
    rfl
  · intro log
    constructor
    · rw [AuditLog.get_alerts]
      apply List.filter_congr
      intro e _
      cases he : e.evaluation.alerts <;> simp [he]
    · exact List.filter_sublist log.entries

/-- Witness for C6's first conjunct: one concrete call appends exactly
one entry to the empty log. -/
theorem audit_log_contract_witness :
    ∃ out : RequestOutcome,
      wInterceptor.evaluate_request ApiOutcome.exn LlmOutcome.exn
          "Summarize this." 7 = .ok out ∧
      out.state.audit_log.entries =
        wInterceptor.audit_log.entries ++ [out.entry] :=
  audit_log_contract.1 wInterceptor wPolicy ApiOutcome.exn LlmOutcome.exn
    "Summarize this." 7 rfl

end Firebreak
